import Mathlib

/-!
Verification of the bbash scoring engine and HTTP handlers.

The CRUD handlers (`addPersonToTeam`, `addParticipant` and the route table)
are embedded from `server.go`.  The scoring engine (`traverseBugCounts`,
`scorePoints`, `validScore`, `processScoringMessage`) and the poll scheduler
are exercised by `server_test.go` but their implementation file is not part
of the sources at hand, so those components are modelled from the
specification, as marked on each definition.
-/

namespace BBash

/-- Errors returned by the persistence collaborator; Go errors are opaque
values compared by message, so a string suffices. -/
abbrev Err := String

/-- Modelled from the spec: the classification tree of §3/§9 — a mapping from
label to either a numeric leaf count, a nested mapping of the same shape, or
a malformed value that is neither (`other`).  Go's `map[string]interface{}`
is embedded as an association list because Go map iteration order is
unspecified. -/
inductive BugValue where
  | num (n : Int)
  | node (entries : List (String × BugValue))
  | other
deriving Inhabited

/-- Modelled from the spec: `types.ScoringMessage` (§3 FixEventMessage). -/
structure ScoringMessage where
  eventSource : String := ""
  repoOwner : String := ""
  repoName : String := ""
  triggerUser : String := ""
  pullRequest : Int := 0
  totalFixed : Int := 0
  bugCounts : List (String × BugValue) := []

/-- Modelled from the spec: `types.ParticipantStruct` — the fields the
scoring pipeline reads. -/
structure ParticipantStruct where
  id : String := ""
  campaignName : String := ""
  scpName : String := ""
  loginName : String := ""
deriving DecidableEq

mutual

/-- Modelled from the spec (§4.1): dispatch on one entry's value — numeric
leaf adds `count * pointValue` to `points` and `count` to `scored`; a nested
mapping is recursed into with the same accumulators; anything else is
malformed and only raises the non-fatal error flag. -/
def traverseBugValue (pv : String → Int) (bugType : String) :
    BugValue → Int → Int → Bool → Int × Int × Bool
  | .num count, points, scored, hadErr =>
      (points + count * pv bugType, scored + count, hadErr)
  | .node entries, points, scored, hadErr =>
      traverseBugCounts pv entries points scored hadErr
  | .other, points, scored, _hadErr => (points, scored, true)

/-- Modelled from the spec (§4.1, `traverseBugCounts`): walk every entry of
the node, threading the `points` and `scored` accumulators (the Go code
mutates them through pointers) and a sticky malformed-entry flag. -/
def traverseBugCounts (pv : String → Int) :
    List (String × BugValue) → Int → Int → Bool → Int × Int × Bool
  | [], points, scored, hadErr => (points, scored, hadErr)
  | (bugType, v) :: rest, points, scored, hadErr =>
      let r := traverseBugValue pv bugType v points scored hadErr
      traverseBugCounts pv rest r.1 r.2.1 r.2.2

end

/-- Modelled from the spec (§4.2, `scorePoints`): run the aggregator over the
message's classification tree starting from zeroed accumulators, discard the
non-fatal malformed error, and add the flat bonus of
`message.totalFixed * 1`.  The point-value store is
`selectPointValue (msg, campaignName, bugType)` (§6). -/
def scorePoints (selectPointValue : ScoringMessage → String → String → Int)
    (msg : ScoringMessage) (campaignName : String) : Int :=
  let r := traverseBugCounts (fun bugType => selectPointValue msg campaignName bugType)
    msg.bugCounts 0 0 false
  r.1 + msg.totalFixed * 1

/-- Opaque timestamp; the engine only threads it through to the store. -/
abbrev Time := Nat

/-- Modelled from the spec (§6): the capability interface of the persistence
collaborator, one function field per store method.  Go methods returning
`(value, error)` become pairs with an `Option Err` component; methods with a
bare `error` result become `Option Err`. -/
structure ScoreStore where
  validOrganization : ScoringMessage → Bool × Option Err
  selectParticipantsToScore : ScoringMessage → Time → List ParticipantStruct × Option Err
  selectPointValue : ScoringMessage → String → String → Int
  selectPriorScore : ParticipantStruct → ScoringMessage → Int
  insertScoringEvent : ParticipantStruct → ScoringMessage → Int → Option Err
  updateParticipantScore : ParticipantStruct → Int → Option Err

/-- Go's `strings.ToLower` on the message fields in play: lowercase every
character. -/
def lowercase (s : String) : String :=
  String.mk (s.data.map Char.toLower)

/-- Modelled from the spec (§4.3 step 2): normalize the reporter login to
lowercase before any matching. -/
def normalizeMsg (msg : ScoringMessage) : ScoringMessage :=
  { msg with triggerUser := lowercase msg.triggerUser }

/-- Modelled from the spec (§4.3, `validScore`): check the organization, and
on success query the participants whose login matches and whose campaign is
active at `now`.  A store failure propagates with zero participants; an
untracked organization is a silent skip. -/
def validScore (store : ScoreStore) (msg : ScoringMessage) (now : Time) :
    List ParticipantStruct × Option Err :=
  let m := normalizeMsg msg
  let org := store.validOrganization m
  match org.2 with
  | some e => ([], some e)
  | none =>
    if org.1 then
      let parts := store.selectParticipantsToScore m now
      match parts.2 with
      | some e => ([], some e)
      | none => (parts.1, none)
    else ([], none)

/-- One committed store side effect of the scoring pipeline. -/
inductive Effect where
  | scoreEvent (p : ParticipantStruct) (msg : ScoringMessage) (newPoints : Int)
  | scoreUpdate (p : ParticipantStruct) (delta : Int)

/-- Modelled from the spec (§4.4 steps 2–3): process each resolved
participant in order — compute the new points, read the prior score, append
the immutable score event, apply the signed delta — returning the list of
effects that committed and the first error, which aborts the remaining
participants. -/
def processParticipants (store : ScoreStore) (msg : ScoringMessage) :
    List ParticipantStruct → List Effect × Option Err
  | [] => ([], none)
  | p :: rest =>
    let newPoints := scorePoints store.selectPointValue msg p.campaignName
    let priorPoints := store.selectPriorScore p msg
    let delta := newPoints - priorPoints
    match store.insertScoringEvent p msg newPoints with
    | some e => ([], some e)
    | none =>
      match store.updateParticipantScore p delta with
      | some e => ([Effect.scoreEvent p msg newPoints], some e)
      | none =>
        let r := processParticipants store msg rest
        (Effect.scoreEvent p msg newPoints :: Effect.scoreUpdate p delta :: r.1, r.2)

/-- Modelled from the spec (§4.4, `processScoringMessage`): resolve the
participants (any resolver error aborts immediately with no effects), then
run the per-participant scoring steps. -/
def processScoringMessage (store : ScoreStore) (now : Time) (msg : ScoringMessage) :
    List Effect × Option Err :=
  let resolved := validScore store msg now
  match resolved.2 with
  | some e => ([], some e)
  | none => processParticipants store msg resolved.1

/-- Modelled from the spec (§4.5): the poll scheduler's process-wide mutable
state — the `stopPoll` stop-signal reference (`none` when Stopped) plus a
fresh-channel supply so that distinct `make(chan bool)` calls yield distinct
signals. -/
structure PollState where
  stopPoll : Option Nat
  nextSignal : Nat
deriving DecidableEq

/-- Modelled from the spec (§4.5 `stop()`, `stopPolling`): from Running,
signal the worker and clear the stop-signal reference; while already Stopped
it is a no-op. -/
def stopPolling (s : PollState) : PollState :=
  match s.stopPoll with
  | some _ => { s with stopPoll := none }
  | none => s

/-- Modelled from the spec (§4.5 `start()`, `beginLogPolling`): create a
fresh stop-signal channel, launch the worker, move to Running. -/
def beginLogPolling (s : PollState) : PollState :=
  { stopPoll := some s.nextSignal, nextSignal := s.nextSignal + 1 }

/-- Modelled from the spec (§4.5 `restart()`, `restartPolling`): `stop()` (a
no-op if already Stopped) followed immediately by `start()`. -/
def restartPolling (s : PollState) : PollState :=
  beginLogPolling (stopPolling s)

/-! Embeddings from `server.go` (the routing table and CRUD handlers). -/

/-- `server.go` line 64: the `PERSON` route constant. -/
def PERSON : String := "/person"

/-- `server.go` line 128: the path registered for `addPersonToTeam`,
`fmt.Sprintf("%s/:githHubName/:teamName", PERSON)`. -/
def addPersonToTeamRoutePath : String :=
  PERSON ++ "/:githHubName/:teamName"

/-- Split a character list into the segments between `/` separators. -/
def splitSegs : List Char → List (List Char)
  | [] => [[]]
  | c :: rest =>
    match splitSegs rest with
    | [] => [[]]
    | seg :: segs => if c = '/' then [] :: seg :: segs else (c :: seg) :: segs

/-- Echo route semantics: the parameter names a route declares are the path
segments that start with a colon, with the colon stripped. -/
def routeParamNames (routePath : String) : List String :=
  (splitSegs routePath.data).filterMap fun seg =>
    match seg with
    | ':' :: name => some (String.mk name)
    | _ => none

/-- Echo route semantics: a matched request binds the declared parameter
names, in order, to the values taken from the request path. -/
def bindRouteParams (routePath : String) (values : List String) :
    List (String × String) :=
  (routeParamNames routePath).zip values

/-- Echo's `c.Param(name)`: the value bound to `name`, or the empty string
when the route declared no parameter of that name. -/
def echoParam : List (String × String) → String → String
  | [], _ => ""
  | (k, v) :: rest, name => if k = name then v else echoParam rest name

/-- Outcome of the `addPersonToTeam` handler. -/
inductive AddPersonResult where
  | badRequest
  | dbError (e : Err)
  | noContent
deriving DecidableEq

/-- One executed `UPDATE participants SET fk_team = ...` statement with its
bound arguments. -/
structure TeamUpdateExec where
  teamName : String
  gitHubName : String
deriving DecidableEq

/-- `server.go` lines 271–312, `addPersonToTeam`: read the `teamName` and
`gitHubName` path parameters; if either is empty answer 400 Bad Request
without touching the store; otherwise run the team-membership update and
answer by its rows-affected count.  The result carries the list of update
statements actually executed. -/
def addPersonToTeam (params : List (String × String))
    (exec : String → String → Except Err Int) :
    AddPersonResult × List TeamUpdateExec :=
  let teamName := echoParam params "teamName"
  let gitHubName := echoParam params "gitHubName"
  if teamName = "" ∨ gitHubName = "" then (.badRequest, [])
  else
    match exec teamName gitHubName with
    | .error e => (.dbError e, [⟨teamName, gitHubName⟩])
    | .ok rows =>
      if rows > 0 then (.noContent, [⟨teamName, gitHubName⟩])
      else (.badRequest, [⟨teamName, gitHubName⟩])

/-- `server.go` lines 38–47: the decoded `participant` request body (the
`Score` field is a string in the Go struct). -/
structure participantBody where
  gitHubName : String := ""
  email : String := ""
  displayName : String := ""
  score : String := ""
  campaignName : String := ""
deriving DecidableEq

/-- A value bound to a placeholder of a SQL statement. -/
inductive SqlValue where
  | str (v : String)
  | int (v : Int)
deriving DecidableEq

/-- A SQL insert statement: the column list it names and the values it
binds, in placeholder order. -/
structure InsertStmt where
  columns : List String
  bindValues : List SqlValue
deriving DecidableEq

/-- `server.go` lines 226–238, the insert issued by `addParticipant`: the
statement names the four columns `(GithubName, Email, DisplayName, Score)`
and binds five values `($1..$5)` — the decoded GitHub name, email and
display name, the literal `0` for the score, and the campaign name. -/
def addParticipantInsert (p : participantBody) : InsertStmt :=
  { columns := ["GithubName", "Email", "DisplayName", "Score"],
    bindValues := [.str p.gitHubName, .str p.email, .str p.displayName,
      .int 0, .str p.campaignName] }

/-! Proof apparatus: the per-subtree contribution of the aggregator, the
tree with its malformed entries removed, and the malformed-entry test. -/

mutual

/-- The contribution one entry value adds to `(points, scored, error)`. -/
def contribValue (pv : String → Int) (bugType : String) : BugValue → Int × Int × Bool
  | .num count => (count * pv bugType, count, false)
  | .node entries => contribEntries pv entries
  | .other => (0, 0, true)

/-- The total contribution of a node's entries to `(points, scored, error)`. -/
def contribEntries (pv : String → Int) : List (String × BugValue) → Int × Int × Bool
  | [] => (0, 0, false)
  | (bugType, v) :: rest =>
      let c := contribValue pv bugType v
      let r := contribEntries pv rest
      (c.1 + r.1, c.2.1 + r.2.1, c.2.2 || r.2.2)

end

/-- A node's entries with every malformed entry removed, at every depth. -/
def stripMalformedEntries : List (String × BugValue) → List (String × BugValue)
  | [] => []
  | (_, .other) :: rest => stripMalformedEntries rest
  | (bugType, .num n) :: rest => (bugType, .num n) :: stripMalformedEntries rest
  | (bugType, .node es) :: rest =>
      (bugType, .node (stripMalformedEntries es)) :: stripMalformedEntries rest

/-- Whether a node's entries contain a malformed entry at any depth. -/
def hasMalformedEntries : List (String × BugValue) → Bool
  | [] => false
  | (_, .other) :: _ => true
  | (_, .num _) :: rest => hasMalformedEntries rest
  | (_, .node es) :: rest => hasMalformedEntries es || hasMalformedEntries rest

/-! Concrete inputs used to witness the theorems below. -/

/-- A first enrolled participant, as in the two-participant pipeline test. -/
def c1p1 : ParticipantStruct :=
  { id := "someId", campaignName := "someCampaign", scpName := "someSCP",
    loginName := "someloginname" }

/-- A second enrolled participant in a second active campaign. -/
def c1p2 : ParticipantStruct :=
  { id := "someId2", campaignName := "someCampaign2", scpName := "someSCP2",
    loginName := "someloginname2" }

/-- A fix-event message with one unclassified fix and no classification
tree, so every campaign computes one new point. -/
def c1msg : ScoringMessage :=
  { eventSource := "GitHub", repoOwner := "validOrg", repoName := "myRepoName",
    triggerUser := "mygithubname", pullRequest := -5, totalFixed := 1 }

/-- A store that resolves the message to both participants, reports a prior
score of 4 for the first and 5 for the second, and whose writes succeed. -/
def c1store : ScoreStore :=
  { validOrganization := fun _ => (true, none)
    selectParticipantsToScore := fun _ _ => ([c1p1, c1p2], none)
    selectPointValue := fun _ _ _ => 0
    selectPriorScore := fun p _ => if p.id = "someId2" then 5 else 4
    insertScoringEvent := fun _ _ _ => none
    updateParticipantScore := fun _ _ => none }

/-- The same store with the score-event insert forced to fail. -/
def c1storeFail : ScoreStore :=
  { c1store with insertScoringEvent := fun _ _ _ => some "forced insert error" }

/-- The point-value configuration of the two-level-tree example:
G104 = 1, ShellCheck = 1, rule-x = 2. -/
def optMapPointValue : ScoringMessage → String → String → Int :=
  fun _ _ bugType =>
    if bugType = "G104" then 1
    else if bugType = "ShellCheck" then 1
    else if bugType = "rule-x" then 2
    else 0

/-- The two-level classification tree
`{"G104": 1, "ShellCheck": 1, "opt": {"semgrep": {"rule-x": 2}}}`. -/
def optMapMsg : ScoringMessage :=
  { bugCounts := [("G104", .num 1), ("ShellCheck", .num 1),
      ("opt", .node [("semgrep", .node [("rule-x", .num 2)])])] }

/-- A store whose organization-validity check itself fails. -/
def c4storeOrgErr : ScoreStore :=
  { c1store with
    validOrganization := fun _ => (false, some "forced org exists query error") }

/-- A store that reports the organization as simply not tracked. -/
def c4storeOrgInvalid : ScoreStore :=
  { c1store with validOrganization := fun _ => (false, none) }

/-- A message from an organization subjected to the validity check. -/
def c4msg : ScoringMessage :=
  { eventSource := "GitHub", repoOwner := "validOrg" }

/-- A point-value store assigning three points to every label; the no-tree
bonus must not depend on it. -/
def c5pointValue : ScoringMessage → String → String → Int := fun _ _ _ => 3

/-- The sibling entries of the order-invariance test: two numeric leaves
around one nested node. -/
def permEntryA : String × BugValue := ("bugTypeSimpleFirst", .num 2)

/-- The nested-node sibling of the order-invariance test. -/
def permEntryB : String × BugValue := ("myBugType", .node [("myNestedBugType", .num 3)])

/-- The trailing numeric sibling of the order-invariance test. -/
def permEntryC : String × BugValue := ("bugTypeSimpleLast", .num 4)

/-- A point-value lookup worth two points for every label. -/
def permPv : String → Int := fun _ => 2

mutual

theorem traverseBugValue_contrib (pv : String → Int) (bugType : String) (v : BugValue)
    (points scored : Int) (hadErr : Bool) :
    traverseBugValue pv bugType v points scored hadErr =
      (points + (contribValue pv bugType v).1, scored + (contribValue pv bugType v).2.1,
        hadErr || (contribValue pv bugType v).2.2) := by
  cases v with
  | num n => simp [traverseBugValue, contribValue]
  | node entries =>
      simp only [traverseBugValue, contribValue]
      exact traverseBugCounts_contrib pv entries points scored hadErr
  | other => simp [traverseBugValue, contribValue]

theorem traverseBugCounts_contrib (pv : String → Int) (entries : List (String × BugValue))
    (points scored : Int) (hadErr : Bool) :
    traverseBugCounts pv entries points scored hadErr =
      (points + (contribEntries pv entries).1, scored + (contribEntries pv entries).2.1,
        hadErr || (contribEntries pv entries).2.2) := by
  cases entries with
  | nil => simp [traverseBugCounts, contribEntries]
  | cons hd rest =>
      obtain ⟨bugType, v⟩ := hd
      simp only [traverseBugCounts, contribEntries]
      rw [traverseBugValue_contrib, traverseBugCounts_contrib]
      simp [add_assoc, Bool.or_assoc]

end

theorem contribEntries_perm (pv : String → Int) {l₁ l₂ : List (String × BugValue)}
    (h : l₁.Perm l₂) : contribEntries pv l₁ = contribEntries pv l₂ := by
  induction h with
  | nil => rfl
  | cons x _ ih => simp only [contribEntries]; rw [ih]
  | swap x y l =>
      obtain ⟨lx, vx⟩ := x
      obtain ⟨ly, vy⟩ := y
      simp only [contribEntries, Prod.ext_iff]
      refine ⟨by ring, by ring, ?_⟩
      simp [Bool.or_left_comm]
  | trans _ _ ih₁ ih₂ => exact ih₁.trans ih₂

theorem contribEntries_err (pv : String → Int) :
    ∀ entries : List (String × BugValue),
      (contribEntries pv entries).2.2 = hasMalformedEntries entries
  | [] => by simp [contribEntries, hasMalformedEntries]
  | (bugType, .num n) :: rest => by
      simp [contribEntries, contribValue, hasMalformedEntries, contribEntries_err pv rest]
  | (bugType, .node es) :: rest => by
      simp [contribEntries, contribValue, hasMalformedEntries,
        contribEntries_err pv es, contribEntries_err pv rest]
  | (bugType, .other) :: rest => by
      simp [contribEntries, contribValue, hasMalformedEntries]

theorem contribEntries_strip (pv : String → Int) :
    ∀ entries : List (String × BugValue),
      contribEntries pv (stripMalformedEntries entries) =
        ((contribEntries pv entries).1, (contribEntries pv entries).2.1, false)
  | [] => by simp [contribEntries, stripMalformedEntries]
  | (bugType, .num n) :: rest => by
      simp [contribEntries, stripMalformedEntries, contribValue,
        contribEntries_strip pv rest]
  | (bugType, .node es) :: rest => by
      simp [contribEntries, stripMalformedEntries, contribValue,
        contribEntries_strip pv es, contribEntries_strip pv rest]
  | (bugType, .other) :: rest => by
      simp [contribEntries, stripMalformedEntries, contribValue,
        contribEntries_strip pv rest]

theorem processParticipants_delta (store : ScoreStore) (msg : ScoringMessage) :
    ∀ (parts : List ParticipantStruct) (p : ParticipantStruct) (δ : Int),
      Effect.scoreUpdate p δ ∈ (processParticipants store msg parts).1 →
      δ = scorePoints store.selectPointValue msg p.campaignName -
        store.selectPriorScore p msg := by
  intro parts
  induction parts with
  | nil => intro p δ h; simp [processParticipants] at h
  | cons q rest ih =>
      intro p δ h
      cases hins : store.insertScoringEvent q msg
          (scorePoints store.selectPointValue msg q.campaignName) with
      | some e => simp [processParticipants, hins] at h
      | none =>
          cases hupd : store.updateParticipantScore q
              (scorePoints store.selectPointValue msg q.campaignName -
                store.selectPriorScore q msg) with
          | some e => simp [processParticipants, hins, hupd] at h
          | none =>
              simp only [processParticipants, hins, hupd, List.mem_cons] at h
              rcases h with h | h | h
              · exact absurd h (by simp)
              · obtain ⟨hp, hδ⟩ := Effect.scoreUpdate.inj h
                subst hp
                exact hδ
              · exact ih p δ h

theorem processParticipants_abort (store : ScoreStore) (msg : ScoringMessage) :
    ∀ (parts : List ParticipantStruct) (e : Err),
      (processParticipants store msg parts).2 = some e →
      ∃ pre p rest, parts = pre ++ p :: rest ∧
        (processParticipants store msg pre).2 = none ∧
        ((store.insertScoringEvent p msg
            (scorePoints store.selectPointValue msg p.campaignName) = some e ∧
          (processParticipants store msg parts).1 =
            (processParticipants store msg pre).1) ∨
         (store.insertScoringEvent p msg
            (scorePoints store.selectPointValue msg p.campaignName) = none ∧
          store.updateParticipantScore p
            (scorePoints store.selectPointValue msg p.campaignName -
              store.selectPriorScore p msg) = some e ∧
          (processParticipants store msg parts).1 =
            (processParticipants store msg pre).1 ++
              [Effect.scoreEvent p msg
                (scorePoints store.selectPointValue msg p.campaignName)])) := by
  intro parts
  induction parts with
  | nil => intro e h; simp [processParticipants] at h
  | cons q rest ih =>
      intro e h
      cases hins : store.insertScoringEvent q msg
          (scorePoints store.selectPointValue msg q.campaignName) with
      | some e' =>
          simp only [processParticipants, hins] at h
          obtain rfl : e' = e := by exact Option.some.inj h
          refine ⟨[], q, rest, rfl, by simp [processParticipants], Or.inl ⟨hins, ?_⟩⟩
          simp [processParticipants, hins]
      | none =>
          cases hupd : store.updateParticipantScore q
              (scorePoints store.selectPointValue msg q.campaignName -
                store.selectPriorScore q msg) with
          | some e' =>
              simp only [processParticipants, hins, hupd] at h
              obtain rfl : e' = e := by exact Option.some.inj h
              refine ⟨[], q, rest, rfl, by simp [processParticipants],
                Or.inr ⟨hins, hupd, ?_⟩⟩
              simp [processParticipants, hins, hupd]
          | none =>
              simp only [processParticipants, hins, hupd] at h
              obtain ⟨pre, p, rest', hsplit, hpre, hbranch⟩ := ih e h
              refine ⟨q :: pre, p, rest', by rw [hsplit]; rfl, ?_, ?_⟩
              · simp [processParticipants, hins, hupd, hpre]
              · rcases hbranch with ⟨hre, heff⟩ | ⟨hre, hru, heff⟩
                · exact Or.inl ⟨hre, by
                    simp [processParticipants, hins, hupd, heff]⟩
                · exact Or.inr ⟨hre, hru, by
                    simp [processParticipants, hins, hupd, heff]⟩

/-- C1: for every scoring message, each participant's committed score
adjustment equals the newly computed points minus that participant's prior
score for the message, and the first failing `insertScoringEvent` or
`updateParticipantScore` aborts the remaining participants: the committed
effects are exactly those of the fully processed prefix, plus the lone
score-event record when the failure struck the score update. -/
theorem processScoringMessage_delta_and_abort (store : ScoreStore) (now : Time)
    (msg : ScoringMessage) :
    (∀ p δ, Effect.scoreUpdate p δ ∈ (processScoringMessage store now msg).1 →
      δ = scorePoints store.selectPointValue msg p.campaignName -
        store.selectPriorScore p msg) ∧
    (∀ e, (processScoringMessage store now msg).2 = some e →
      ((validScore store msg now).2 = some e ∧
        (processScoringMessage store now msg).1 = []) ∨
      ((validScore store msg now).2 = none ∧
        ∃ pre p rest, (validScore store msg now).1 = pre ++ p :: rest ∧
          (processParticipants store msg pre).2 = none ∧
          ((store.insertScoringEvent p msg
              (scorePoints store.selectPointValue msg p.campaignName) = some e ∧
            (processScoringMessage store now msg).1 =
              (processParticipants store msg pre).1) ∨
           (store.insertScoringEvent p msg
              (scorePoints store.selectPointValue msg p.campaignName) = none ∧
            store.updateParticipantScore p
              (scorePoints store.selectPointValue msg p.campaignName -
                store.selectPriorScore p msg) = some e ∧
            (processScoringMessage store now msg).1 =
              (processParticipants store msg pre).1 ++
                [Effect.scoreEvent p msg
                  (scorePoints store.selectPointValue msg p.campaignName)])))) := by
  cases hres : (validScore store msg now).2 with
  | some e0 =>
      constructor
      · intro p δ h
        simp [processScoringMessage, hres] at h
      · intro e h
        simp only [processScoringMessage, hres] at h
        refine Or.inl ⟨?_, by simp [processScoringMessage, hres]⟩
        exact congrArg some (by simpa using h)
  | none =>
      constructor
      · intro p δ h
        simp only [processScoringMessage, hres] at h
        exact processParticipants_delta store msg _ p δ h
      · intro e h
        simp only [processScoringMessage, hres] at h
        refine Or.inr ⟨rfl, ?_⟩
        obtain ⟨pre, p, rest, hsplit, hpre, hbranch⟩ :=
          processParticipants_abort store msg _ e h
        refine ⟨pre, p, rest, hsplit, hpre, ?_⟩
        simpa only [processScoringMessage, hres] using hbranch

/-- Witness for C1: with two resolved participants, one unclassified fix
(new points 1) and prior scores 4 and 5, the first participant's committed
delta is `1 - 4 = -3`; when the event insert is forced to fail, processing
aborts with that error before committing anything. -/
theorem processScoringMessage_delta_and_abort_witness :
    ((-3 : Int) = scorePoints c1store.selectPointValue c1msg "someCampaign" -
      c1store.selectPriorScore c1p1 c1msg) ∧
    (processScoringMessage c1store 0 c1msg).1 =
      [Effect.scoreEvent c1p1 c1msg 1, Effect.scoreUpdate c1p1 (-3),
       Effect.scoreEvent c1p2 c1msg 1, Effect.scoreUpdate c1p2 (-4)] ∧
    processScoringMessage c1storeFail 0 c1msg = ([], some "forced insert error") := by
  have hl : (processScoringMessage c1store 0 c1msg).1 =
      [Effect.scoreEvent c1p1 c1msg 1, Effect.scoreUpdate c1p1 (-3),
       Effect.scoreEvent c1p2 c1msg 1, Effect.scoreUpdate c1p2 (-4)] := rfl
  refine ⟨?_, hl, rfl⟩
  have hp1 : c1p1.campaignName = "someCampaign" := rfl
  refine hp1 ▸ (processScoringMessage_delta_and_abort c1store 0 c1msg).1 c1p1 (-3) ?_
  rw [hl]
  exact List.mem_cons_of_mem _ (List.mem_cons_self _ _)

/-- C2: the two-level tree `{G104: 1, ShellCheck: 1, opt: {semgrep:
{rule-x: 2}}}` with point values G104 = 1, ShellCheck = 1, rule-x = 2
scores exactly `1*1 + 1*1 + 2*2 = 6` points. -/
theorem scorePoints_optMap_example :
    scorePoints optMapPointValue optMapMsg "myCampaign" = 6 := by decide

/-- C3: a malformed entry contributes nothing to either accumulator —
the walk computes exactly what it computes on the tree with malformed
entries removed — sibling and descendant processing continues, the
malformed condition surfaces as the (non-fatal) error outcome, and the
score calculator still returns the valid entries' contributions plus the
unclassified bonus. -/
theorem traverseBugCounts_malformed_nonfatal (pv : String → Int)
    (entries : List (String × BugValue)) (points scored : Int) (hadErr : Bool) :
    (traverseBugCounts pv entries points scored hadErr).1 =
      (traverseBugCounts pv (stripMalformedEntries entries) points scored hadErr).1 ∧
    (traverseBugCounts pv entries points scored hadErr).2.1 =
      (traverseBugCounts pv (stripMalformedEntries entries) points scored hadErr).2.1 ∧
    (traverseBugCounts pv entries points scored hadErr).2.2 =
      (hadErr || hasMalformedEntries entries) ∧
    ∀ (spv : ScoringMessage → String → String → Int) (msg : ScoringMessage)
      (campaign : String),
      scorePoints spv msg campaign =
        (contribEntries (fun bugType => spv msg campaign bugType)
          (stripMalformedEntries msg.bugCounts)).1 + msg.totalFixed * 1 := by
  rw [traverseBugCounts_contrib, traverseBugCounts_contrib, contribEntries_strip,
    contribEntries_err]
  refine ⟨rfl, rfl, by simp, ?_⟩
  intro spv msg campaign
  rw [scorePoints, traverseBugCounts_contrib, contribEntries_strip]
  simp

/-- C4: the resolver returns zero participants with the store's error
propagated unchanged when the organization-validity check itself fails,
and zero participants with no error when the organization is simply not
tracked. -/
theorem validScore_org_outcomes (store : ScoreStore) (msg : ScoringMessage)
    (now : Time) :
    (∀ e, (store.validOrganization (normalizeMsg msg)).2 = some e →
      validScore store msg now = ([], some e)) ∧
    ((store.validOrganization (normalizeMsg msg)).2 = none →
      (store.validOrganization (normalizeMsg msg)).1 = false →
      validScore store msg now = ([], none)) := by
  constructor
  · intro e h
    simp [validScore, h]
  · intro h1 h2
    simp [validScore, h1, h2]

/-- Witness for C4: a store whose validity check fails propagates the
forced error with zero participants; a store reporting an untracked
organization yields zero participants and no error. -/
theorem validScore_org_outcomes_witness :
    validScore c4storeOrgErr c4msg 0 = ([], some "forced org exists query error") ∧
    validScore c4storeOrgInvalid c4msg 0 = ([], none) :=
  ⟨(validScore_org_outcomes c4storeOrgErr c4msg 0).1 _ rfl,
    (validScore_org_outcomes c4storeOrgInvalid c4msg 0).2 rfl rfl⟩

/-- C5: with no classification tree the calculator returns exactly
`totalFixed * 1`, whatever the point-value configuration. -/
theorem scorePoints_no_tree_bonus (spv : ScoringMessage → String → String → Int)
    (msg : ScoringMessage) (campaign : String) (h : msg.bugCounts = []) :
    scorePoints spv msg campaign = msg.totalFixed * 1 := by
  simp [scorePoints, h, traverseBugCounts]

/-- Witness for C5: the empty message scores 0 and a message with one
unclassified fix scores 1. -/
theorem scorePoints_no_tree_bonus_witness :
    scorePoints c5pointValue {} "myCampaign" = 0 ∧
    scorePoints c5pointValue { totalFixed := 1 } "myCampaign" = 1 :=
  ⟨by simpa using scorePoints_no_tree_bonus c5pointValue {} "myCampaign" rfl, by
    have h1 := scorePoints_no_tree_bonus c5pointValue
      ({ totalFixed := 1 } : ScoringMessage) "myCampaign" rfl
    simpa using h1⟩

/-- C6: the aggregator's result is invariant under any reordering of a
node's sibling entries, and a nil/empty node leaves the accumulators
unchanged. -/
theorem traverseBugCounts_perm_invariant (pv : String → Int) (points scored : Int)
    (hadErr : Bool) (l₁ l₂ : List (String × BugValue)) (h : l₁.Perm l₂) :
    traverseBugCounts pv l₁ points scored hadErr =
      traverseBugCounts pv l₂ points scored hadErr ∧
    traverseBugCounts pv [] points scored hadErr = (points, scored, hadErr) := by
  refine ⟨?_, rfl⟩
  rw [traverseBugCounts_contrib, traverseBugCounts_contrib, contribEntries_perm pv h]

/-- Witness for C6: swapping the first two of three sibling entries (two
numeric leaves around one nested node) leaves the totals `(19, 11)`
unchanged, and the empty node is a no-op. -/
theorem traverseBugCounts_perm_invariant_witness :
    traverseBugCounts permPv [permEntryA, permEntryB, permEntryC] 1 2 false =
      traverseBugCounts permPv [permEntryB, permEntryA, permEntryC] 1 2 false ∧
    traverseBugCounts permPv [permEntryA, permEntryB, permEntryC] 1 2 false =
      (19, 11, false) ∧
    traverseBugCounts permPv [] 1 2 false = (1, 2, false) := by
  have h := traverseBugCounts_perm_invariant permPv 1 2 false
    [permEntryA, permEntryB, permEntryC] [permEntryB, permEntryA, permEntryC]
    (List.Perm.swap permEntryB permEntryA [permEntryC])
  exact ⟨h.1, by decide, h.2⟩

/-- C7: the resolver lowercases the trigger user before matching, so two
messages whose trigger users differ only in letter case resolve
identically. -/
theorem validScore_case_insensitive (store : ScoreStore) (now : Time)
    (msg : ScoringMessage) (u₁ u₂ : String) (h : lowercase u₁ = lowercase u₂) :
    validScore store { msg with triggerUser := u₁ } now =
      validScore store { msg with triggerUser := u₂ } now := by
  have hn : normalizeMsg { msg with triggerUser := u₁ } =
      normalizeMsg { msg with triggerUser := u₂ } := by
    simp [normalizeMsg, h]
  unfold validScore
  rw [hn]

/-- Witness for C7: `MYGithubName` and `mygithubname` resolve to the same
two participants. -/
theorem validScore_case_insensitive_witness :
    validScore c1store { c1msg with triggerUser := "MYGithubName" } 0 =
      validScore c1store { c1msg with triggerUser := "mygithubname" } 0 ∧
    (validScore c1store { c1msg with triggerUser := "MYGithubName" } 0).1 =
      [c1p1, c1p2] :=
  ⟨validScore_case_insensitive c1store 0 c1msg "MYGithubName" "mygithubname"
      (by decide), rfl⟩

/-- C8: after `stopPolling` the stop-signal is cleared; stopping while
already Stopped is a no-op; a restart yields the fresh non-nil stop-signal
`nextSignal`, distinct from any signal of the prior run. -/
theorem stopPolling_idempotent_restart_fresh (s : PollState) :
    (stopPolling s).stopPoll = none ∧
    (s.stopPoll = none → stopPolling s = s) ∧
    (restartPolling s).stopPoll = some s.nextSignal ∧
    (∀ i, s.stopPoll = some i → i < s.nextSignal →
      (restartPolling s).stopPoll ≠ some i) := by
  have h3 : (restartPolling s).stopPoll = some s.nextSignal := by
    cases h : s.stopPoll <;>
      simp [restartPolling, beginLogPolling, stopPolling, h]
  refine ⟨?_, ?_, h3, ?_⟩
  · cases h : s.stopPoll <;> simp [stopPolling, h]
  · intro h; simp [stopPolling, h]
  · intro i _ hlt
    rw [h3]
    intro hcon
    have := Option.some.inj hcon
    omega

/-- Witness for C8: stopping a Running scheduler clears the signal,
stopping a Stopped one changes nothing, and restarting yields the fresh
signal 1, distinct from the prior signal 0. -/
theorem stopPolling_idempotent_restart_fresh_witness :
    (stopPolling { stopPoll := some 0, nextSignal := 1 }).stopPoll = none ∧
    stopPolling { stopPoll := none, nextSignal := 5 } =
      { stopPoll := none, nextSignal := 5 } ∧
    (restartPolling { stopPoll := some 0, nextSignal := 1 }).stopPoll = some 1 ∧
    (restartPolling { stopPoll := some 0, nextSignal := 1 }).stopPoll ≠ some 0 :=
  ⟨(stopPolling_idempotent_restart_fresh _).1,
    (stopPolling_idempotent_restart_fresh _).2.1 rfl,
    (stopPolling_idempotent_restart_fresh _).2.2.1,
    (stopPolling_idempotent_restart_fresh _).2.2.2 0 rfl (by decide)⟩

/-- C9: the route declares `:githHubName` while the handler reads
`gitHubName`, so for every request the login the handler sees is empty and
it answers 400 Bad Request without executing the team-membership update. -/
theorem addPersonToTeam_param_mismatch (values : List String)
    (exec : String → String → Except Err Int) :
    routeParamNames addPersonToTeamRoutePath = ["githHubName", "teamName"] ∧
    echoParam (bindRouteParams addPersonToTeamRoutePath values) "gitHubName" = "" ∧
    addPersonToTeam (bindRouteParams addPersonToTeamRoutePath values) exec =
      (.badRequest, []) := by
  have hnames : routeParamNames addPersonToTeamRoutePath =
      ["githHubName", "teamName"] := by decide
  have hparam : echoParam (bindRouteParams addPersonToTeamRoutePath values)
      "gitHubName" = "" := by
    rw [bindRouteParams, hnames]
    match values with
    | [] => rfl
    | [a] =>
        simp only [List.zip, List.zipWith, echoParam]
        rw [if_neg (by decide)]
    | a :: b :: t =>
        simp only [List.zip, List.zipWith, echoParam]
        rw [if_neg (by decide), if_neg (by decide)]
  refine ⟨hnames, hparam, ?_⟩
  simp [addPersonToTeam, hparam]

/-- C10: `addParticipant`'s insert always binds the constant 0 for the new
participant's score — whatever score the request supplied — and names four
columns while binding five values, the campaign name included. -/
theorem addParticipant_insert_binds (p : participantBody) (sc : String) :
    (addParticipantInsert p).columns.length = 4 ∧
    (addParticipantInsert p).bindValues.length = 5 ∧
    (addParticipantInsert p).bindValues[3]? = some (.int 0) ∧
    (addParticipantInsert p).bindValues[4]? = some (.str p.campaignName) ∧
    addParticipantInsert { p with score := sc } = addParticipantInsert p := by
  simp [addParticipantInsert]

end BBash

